import Mathlib

/-!
Verification of the cross-lingual sense-projection and alignment-quality
code of this repository.  The Python sources are shallowly embedded as
executable Lean functions:

* `parseAlignLine` / `parsePair` — the alignment-file line parser shared by
  `AlignmentEvaluator.__init__` (alignment_quality_eval.py) and
  `SenseProjector.load_alignments` (sense_projection.py);
* the `SenseProjection` namespace — `SenseProjector` state and its
  `load_sense_annotations` / `project_senses` methods;
* the `RunProjection` namespace — the greedy token reconciliation and the
  per-link projection loop of `run_projection.project_senses`;
* the `AlignmentQualityEval` namespace — the statistics, topology, crossing
  and Jaccard computations of `AlignmentEvaluator`.

Python dictionaries are modelled as association lists with unique keys
(`dictInsert` replaces on key collision, as `d[k] = v` does), strings as
Lean `String` / `List Char`, `str.lower()` as ASCII lowering (the inputs
compared by the code are ASCII tokens), and raising code as `Except`.
-/

/-! ### Python dictionary model -/

/-- Python `d[k] = v`: replace the value if the key is present, else append. -/
def dictInsert {α β : Type} [DecidableEq α] : List (α × β) → α → β → List (α × β)
  | [], k, v => [(k, v)]
  | (k', v') :: rest, k, v =>
    if k' = k then (k, v) :: rest else (k', v') :: dictInsert rest k v

/-- Python `d.get(k)` / `k in d`: first (hence only) binding for the key. -/
def dictGet? {α β : Type} [DecidableEq α] : List (α × β) → α → Option β
  | [], _ => none
  | (k', v) :: rest, k => if k' = k then some v else dictGet? rest k

/-- Python `dict(pairs)`: left fold of insertions (later pairs win). -/
def dictOfList {α β : Type} [DecidableEq α] (ps : List (α × β)) : List (α × β) :=
  ps.foldl (fun d p => dictInsert d p.1 p.2) []

/-- Python `defaultdict` read access with a default. -/
def dictGetD {α β : Type} [DecidableEq α] (d : List (α × β)) (k : α) (dflt : β) : β :=
  (dictGet? d k).getD dflt

/-! ### Python string helpers -/

/-- Python `str.strip()` (whitespace model: `Char.isWhitespace`). -/
def pyStrip (s : List Char) : List Char :=
  ((s.dropWhile Char.isWhitespace).reverse.dropWhile Char.isWhitespace).reverse

/-- Python `str.split(sep)` for a one-character separator: split at every
occurrence, keeping empty fields. -/
def splitOnChar (sep : Char) : List Char → List (List Char)
  | [] => [[]]
  | c :: rest =>
    match splitOnChar sep rest with
    | [] => if c = sep then [[], [c]] else [[c]]
    | h :: t => if c = sep then [] :: h :: t else (c :: h) :: t

/-- Split at every character satisfying the predicate, keeping empty fields. -/
def splitOnPred (p : Char → Bool) : List Char → List (List Char)
  | [] => [[]]
  | c :: rest =>
    match splitOnPred p rest with
    | [] => if p c then [[], [c]] else [[c]]
    | h :: t => if p c then [] :: h :: t else (c :: h) :: t

/-- Python `str.split()` with no argument: split on whitespace runs,
discarding empty fields. -/
def pySplitWs (s : List Char) : List (List Char) :=
  (splitOnPred Char.isWhitespace s).filter (· ≠ [])

/-- Value of a nonempty all-digit string. -/
def digitsVal : List Char → Option Nat
  | [] => none
  | [c] => if c.isDigit then some (c.toNat - '0'.toNat) else none
  | c :: rest =>
    if c.isDigit then
      match digitsVal rest with
      | some n => some ((c.toNat - '0'.toNat) * 10 ^ rest.length + n)
      | none => none
    else none

/-- Python `int(s)`: optional surrounding whitespace, optional sign, then a
nonempty digit string (digit-group underscores are not modelled; none occur
in alignment files). -/
def pyInt? (s : List Char) : Option Int :=
  match pyStrip s with
  | '-' :: rest => (digitsVal rest).map (fun n => -(n : Int))
  | '+' :: rest => (digitsVal rest).map Int.ofNat
  | t => (digitsVal t).map Int.ofNat

/-- Python `str.lower()` restricted to ASCII case folding. -/
def lowerString (s : String) : String :=
  ⟨s.data.map Char.toLower⟩

/-- Python string comparison `a < b` on code points, for `sorted`. -/
def strLtB : List Char → List Char → Bool
  | [], [] => false
  | [], _ :: _ => true
  | _ :: _, [] => false
  | a :: as, b :: bs =>
    if a.toNat < b.toNat then true
    else if b.toNat < a.toNat then false
    else strLtB as bs

/-- One insertion step of insertion sort by `strLtB`. -/
def insertKey (s : String) : List String → List String
  | [] => [s]
  | t :: ts => if strLtB s.data t.data then s :: t :: ts else t :: insertKey s ts

/-- Python `sorted` on strings (stable order is irrelevant to the claims). -/
def sortKeys (l : List String) : List String :=
  l.foldr insertKey []

/-! ### AlignmentStore: the alignment-file line parser

`AlignmentEvaluator.__init__` (alignment_quality_eval.py, lines 29-45) and
`SenseProjector.load_alignments` (sense_projection.py, lines 92-109) parse
each payload token identically:

    for pair in parts[1].split():
        if '-' in pair:
            src, tgt = pair.split('-')
            align_pairs.append((int(src), int(tgt)))

A token without `-` is skipped; a token with `-` is split on every `-`,
the two-element unpacking raises `ValueError` for any other arity, and
`int()` raises on non-integer halves.  Raising is modelled as `Except.error`. -/

/-- One payload token: `Except.ok none` = silently skipped, `Except.ok (some l)`
= parsed link, `Except.error ()` = Python `ValueError`. -/
def parsePair (tok : List Char) : Except Unit (Option (Int × Int)) :=
  if '-' ∈ tok then
    match splitOnChar '-' tok with
    | [a, b] =>
      match pyInt? a, pyInt? b with
      | some x, some y => Except.ok (some (x, y))
      | _, _ => Except.error ()
    | _ => Except.error ()
  else Except.ok none

/-- Parse the payload tokens in order, propagating the first exception. -/
def parsePairs : List (List Char) → Except Unit (List (Int × Int))
  | [] => Except.ok []
  | t :: ts =>
    match parsePair t with
    | Except.error e => Except.error e
    | Except.ok none => parsePairs ts
    | Except.ok (some l) =>
      match parsePairs ts with
      | Except.error e => Except.error e
      | Except.ok ls => Except.ok (l :: ls)

/-- One line of an alignment file (both loaders): strip; an empty line is an
empty alignment; exactly two tab-separated fields required, otherwise the
line yields an empty alignment; then the payload tokens are parsed. -/
def parseAlignLine (line : String) : Except Unit (List (Int × Int)) :=
  let l := pyStrip line.data
  if l = [] then Except.ok []
  else
    match splitOnChar '\t' l with
    | [_, payload] => parsePairs (pySplitWs payload)
    | _ => Except.ok []

/-! ### SenseProjector (sense_projection.py) -/

namespace SenseProjection

/-- The loaded state of a `SenseProjector` (sense_projection.py, `__init__`):
gold sense map, per-sentence annotation mentions, alignments and the two
token files.  `sentence_to_instances` is the defaultdict as an association
list in insertion order. -/
structure SPState where
  instance_to_bn : List (String × String)
  sentence_to_instances : List (String × List (Nat × String))
  alignments : List (List (Nat × Nat))
  english_tokens : List (List String)
  target_tokens : List (List String)

/-- One line of the sense key file (`load_sense_annotations`, lines 41-55):
strip, skip empty lines, split on whitespace; a line whose token count is at
least 2 binds `parts[0]` when `parts[1:]` has exactly one label, i.e. a line
of exactly two tokens. -/
def parseKeyLine (line : String) : Option (String × String) :=
  let l := pyStrip line.data
  if l = [] then none
  else
    match pySplitWs l with
    | [a, b] => some (String.mk a, String.mk b)
    | _ => none

/-- `SenseProjector.load_sense_annotations` over the file's lines: each
accepted line assigns `instance_to_bn[instance_id] = bn_id`, a plain dict
assignment that overwrites any earlier binding of the same instance_id. -/
def load_sense_annotations (lines : List String) : List (String × String) :=
  lines.foldl
    (fun d line =>
      match parseKeyLine line with
      | some p => dictInsert d p.1 p.2
      | none => d)
    []

/-- The body of the per-link loop of `SenseProjector.project_senses`
(lines 158-170): resolve the instance at the English index, resolve its
sense, bounds-check the target index, emit the case-folded target token. -/
def emitOne (bnMap : List (String × String)) (t2i : List (Nat × String))
    (tgtToks : List String) (l : Nat × Nat) : Option (String × String) :=
  match dictGet? t2i l.1 with
  | none => none
  | some instId =>
    match dictGet? bnMap instId with
    | none => none
    | some bn =>
      if h : l.2 < tgtToks.length then
        some (bn, lowerString (tgtToks.get ⟨l.2, h⟩))
      else none

/-- The per-sentence part of `SenseProjector.project_senses`:
`token_to_instance = dict(mentions)` then the link loop in stored order. -/
def projectSentence (bnMap : List (String × String))
    (mentions : List (Nat × String)) (tgtToks : List String)
    (aligns : List (Nat × Nat)) : List (String × String) :=
  aligns.filterMap (emitOne bnMap (dictOfList mentions) tgtToks)

/-- The sentence loop of `SenseProjector.project_senses` (lines 140-170):
`enumerate(sorted(keys))`, skipping indices that run past the alignment or
token lists. -/
def projectGo (st : SPState) : List String → Nat → List (String × String)
  | [], _ => []
  | sid :: rest, i =>
    (match st.alignments[i]?, st.english_tokens[i]?, st.target_tokens[i]? with
     | some aligns, some _, some tgtToks =>
       projectSentence st.instance_to_bn (dictGetD st.sentence_to_instances sid [])
         tgtToks aligns
     | _, _, _ => []) ++ projectGo st rest (i + 1)

/-- `SenseProjector.project_senses` (lines 126-173). -/
def project_senses (st : SPState) : List (String × String) :=
  projectGo st (sortKeys (st.sentence_to_instances.map (·.1))) 0

end SenseProjection

/-! ### run_projection.py -/

namespace RunProjection

/-- One row of the per-sentence annotation table as assembled at
run_projection.py lines 112-123 (`tokens_data`); only the two fields the
projection loop reads are modelled (`token` and `type` are never consumed). -/
structure Se13Tok where
  raw_text : String
  instance_id : Option String
deriving DecidableEq

/-- `load_gold_sense_annotations` (run_projection.py lines 15-24): lines of
exactly two whitespace-separated fields populate the dict, later lines
overwriting earlier ones.  The accepted-line predicate coincides with
`SenseProjection.parseKeyLine`. -/
def load_gold_sense_annotations (lines : List String) : List (String × String) :=
  lines.foldl
    (fun d line =>
      match SenseProjection.parseKeyLine line with
      | some p => dictInsert d p.1 p.2
      | none => d)
    []

/-- The body of the inner `while` of the reconciliation loop (lines 148-163),
recursing over the annotation rows not yet consumed: compare each row's
raw_text, case-folded, against `tok`, returning the index of the first hit. -/
def scanFromList : List Se13Tok → String → Nat → Option Nat
  | [], _, _ => none
  | d :: rest, tok, c =>
    if lowerString d.raw_text = lowerString tok then some c
    else scanFromList rest tok (c + 1)

/-- The inner `while` of the reconciliation loop: scan the annotation rows
from cursor `c` (the rows below `c` are already consumed). -/
def scanFrom (se13 : List Se13Tok) (tok : String) (c : Nat) : Option Nat :=
  scanFromList (se13.drop c) tok c

/-- The outer reconciliation loop (lines 143-163): for each English position
in increasing order, greedily consume annotation rows; a failed scan leaves
the cursor exhausted, so every later position stays unmapped. -/
def reconcileAux (se13 : List Se13Tok) : List String → Nat → Nat → List (Nat × Nat)
  | [], _, _ => []
  | tok :: rest, p, c =>
    match scanFrom se13 tok c with
    | some m => (p, m) :: reconcileAux se13 rest (p + 1) (m + 1)
    | none => reconcileAux se13 rest (p + 1) se13.length

/-- `eng_pos_to_se13_idx` as built by run_projection.py lines 143-163,
as an association list in insertion order. -/
def reconcile (engToks : List String) (se13 : List Se13Tok) : List (Nat × Nat) :=
  reconcileAux se13 engToks 0 0

/-- The guard chain of the alignment loop (lines 166-178) up to the point
where an instance_id is in hand: bounds checks, reconciliation-map lookup,
annotation-row fetch, and Python truthiness of the instance_id. -/
def resolveInstance (se13 : List Se13Tok) (recMap : List (Nat × Nat))
    (engToks chiToks : List String) (l : Nat × Nat) : Option String :=
  if l.1 < engToks.length ∧ l.2 < chiToks.length then
    match dictGet? recMap l.1 with
    | none => none
    | some idx =>
      match se13[idx]? with
      | none => none
      | some d =>
        match d.instance_id with
        | none => none
        | some instId => if instId = "" then none else some instId
  else none

/-- The full body of the alignment loop of `project_senses`
(run_projection.py lines 166-189) for one link: the guards of
`resolveInstance`, then the sense lookup, then the duplicate-mention count
check, then the emission of `(synset_id, chinese_tokens[chi_pos])`. -/
def processAlignment (sense_dict : List (String × String)) (se13 : List Se13Tok)
    (recMap : List (Nat × Nat)) (engToks chiToks : List String) (l : Nat × Nat) :
    Option (String × String) :=
  if h : l.1 < engToks.length ∧ l.2 < chiToks.length then
    match dictGet? recMap l.1 with
    | none => none
    | some idx =>
      match se13[idx]? with
      | none => none
      | some d =>
        match d.instance_id with
        | none => none
        | some instId =>
          if instId = "" then none
          else
            match dictGet? sense_dict instId with
            | none => none
            | some synsetId =>
              if se13.countP (fun t => t.instance_id == some instId) = 1 then
                some (synsetId, chiToks.get ⟨l.2, h.2⟩)
              else none
  else none

/-- The per-sentence work of `run_projection.project_senses`: build the
reconciliation map, then process the sentence's links in stored order. -/
def projectSentenceRP (sense_dict : List (String × String)) (se13 : List Se13Tok)
    (engToks chiToks : List String) (alignment : List (Nat × Nat)) :
    List (String × String) :=
  alignment.filterMap (processAlignment sense_dict se13 (reconcile engToks se13) engToks chiToks)

end RunProjection

/-! ### AlignmentEvaluator (alignment_quality_eval.py) -/

namespace AlignmentQualityEval

/-- `Counter(i for i, j in aligns)[l.1]`: the number of links of the sentence
sharing a link's source position (duplicated links counted with multiplicity,
as the source processes the raw list). -/
def srcDeg (aligns : List (Nat × Nat)) (l : Nat × Nat) : Nat :=
  aligns.countP (fun x => x.1 == l.1)

/-- `Counter(j for i, j in aligns)[l.2]`: links sharing the target position. -/
def tgtDeg (aligns : List (Nat × Nat)) (l : Nat × Nat) : Nat :=
  aligns.countP (fun x => x.2 == l.2)

/-- The four counters of `analyze_alignment_patterns` (lines 105-108). -/
structure PatternCounts where
  one_to_one : Nat
  many_to_one_tgt : Nat
  one_to_many_src : Nat
  many_to_many : Nat
deriving DecidableEq

/-- The classification `if`-chain of `analyze_alignment_patterns`
(lines 117-128) for one link of the sentence. -/
def bumpPattern (aligns : List (Nat × Nat)) (acc : PatternCounts) (l : Nat × Nat) :
    PatternCounts :=
  let s := srcDeg aligns l
  let t := tgtDeg aligns l
  if s = 1 ∧ t = 1 then { acc with one_to_one := acc.one_to_one + 1 }
  else if s = 1 ∧ 1 < t then { acc with many_to_one_tgt := acc.many_to_one_tgt + 1 }
  else if 1 < s ∧ t = 1 then { acc with one_to_many_src := acc.one_to_many_src + 1 }
  else { acc with many_to_many := acc.many_to_many + 1 }

/-- The per-link loop over one sentence's raw link list. -/
def analyzeGo (aligns : List (Nat × Nat)) (acc : PatternCounts) :
    List (Nat × Nat) → PatternCounts
  | [] => acc
  | l :: rest => analyzeGo aligns (bumpPattern aligns acc l) rest

/-- The per-sentence contribution of `analyze_alignment_patterns`
(lines 110-128): an empty link list is skipped (`continue`), otherwise every
link of the sentence is classified against the sentence's degree counters. -/
def analyzePatterns (aligns : List (Nat × Nat)) : PatternCounts :=
  if aligns = [] then ⟨0, 0, 0, 0⟩ else analyzeGo aligns ⟨0, 0, 0, 0⟩ aligns

/-- The pairwise crossing scan of `identify_typical_errors` (lines 277-283):
some pair of links `(i1,j1)`, `(i2,j2)` with `i1 < i2` and `j1 > j2`. -/
def hasCrossing (aligns : List (Nat × Nat)) : Bool :=
  aligns.any (fun p => aligns.any (fun q => p.1 < q.1 && q.2 < p.2))

/-- A sentence is flagged as crossing (lines 270-286) only when it holds at
least two links (`if len(aligns) < 2: continue`) and the pairwise scan hits. -/
def sentenceCrossing (aligns : List (Nat × Nat)) : Bool :=
  decide (2 ≤ aligns.length) && hasCrossing aligns

/-- The per-sentence agreement value of `compare_methods` (lines 322-333):
both link lists are turned into sets; if both sets are empty the sentence is
skipped (`continue`, modelled as `none`); otherwise, if the union is
nonempty, Jaccard similarity `|∩| / |∪|` is recorded. -/
def jaccardPair (l1 l2 : List (Nat × Nat)) : Option ℚ :=
  let s1 := l1.toFinset
  let s2 := l2.toFinset
  if s1.card = 0 ∧ s2.card = 0 then none
  else if 0 < (s1 ∪ s2).card then
    some (((s1 ∩ s2).card : ℚ) / ((s1 ∪ s2).card : ℚ))
  else none

/-- `total_alignments` (line 56). -/
def totalAlignments (alignments : List (List (Nat × Nat))) : Nat :=
  (alignments.map List.length).sum

/-- `avg_alignments` (line 57): guarded by the truthiness of the list,
returning 0 for an empty corpus. -/
def avgAlignments (alignments : List (List (Nat × Nat))) : ℚ :=
  if alignments ≠ [] then (totalAlignments alignments : ℚ) / (alignments.length : ℚ)
  else 0

/-- Python `min` over a list guarded as in line 64; 0 for an empty list. -/
def minList : List Nat → Nat
  | [] => 0
  | h :: t => t.foldl Nat.min h

/-- Python `max` over a list guarded as in line 65; 0 for an empty list. -/
def maxList : List Nat → Nat
  | [] => 0
  | h :: t => t.foldl Nat.max h

/-- The coverage loop of `compute_basic_statistics` (lines 78-90): for each
sentence index with both token files long enough and both sentences nonempty,
record the fractions of distinct aligned source and target positions. -/
def coverageGo (eng tgt : List (List String)) :
    List (List (Nat × Nat)) → Nat → List ℚ × List ℚ
  | [], _ => ([], [])
  | aligns :: rest, i =>
    let r := coverageGo eng tgt rest (i + 1)
    match eng[i]?, tgt[i]? with
    | some e, some t =>
      if 0 < e.length ∧ 0 < t.length then
        ((((aligns.map (·.1)).dedup.length : ℚ) / (e.length : ℚ)) :: r.1,
         (((aligns.map (·.2)).dedup.length : ℚ) / (t.length : ℚ)) :: r.2)
      else r
    | _, _ => r

/-- Python `sum(l)/len(l) if l else 0` (lines 92-93). -/
def avgQ (l : List ℚ) : ℚ :=
  if l ≠ [] then l.sum / (l.length : ℚ) else 0

/-- The numeric outputs of `compute_basic_statistics` (lines 50-97). -/
structure BasicStats where
  total_alignments : Nat
  avg_alignments : ℚ
  no_align : Nat
  no_align_pct : ℚ
  min_align : Nat
  max_align : Nat
  avg_en_coverage : ℚ
  avg_tgt_coverage : ℚ

/-- `compute_basic_statistics`: all figures the method reports.  The
percentage of sentences with no alignments (line 70) divides by
`len(self.alignments)` with no guard, so an empty corpus raises
`ZeroDivisionError` (`Except.error`); every other division is guarded. -/
def computeBasicStatistics (alignments : List (List (Nat × Nat)))
    (eng tgt : List (List String)) : Except Unit BasicStats :=
  let noAlign := alignments.countP (fun a => a.length == 0)
  let alignCounts := alignments.map List.length
  if alignments.length = 0 then Except.error ()
  else
    let cov := coverageGo eng tgt alignments 0
    Except.ok
      { total_alignments := totalAlignments alignments
        avg_alignments := avgAlignments alignments
        no_align := noAlign
        no_align_pct := (100 * noAlign : ℚ) / (alignments.length : ℚ)
        min_align := minList alignCounts
        max_align := maxList alignCounts
        avg_en_coverage := avgQ cov.1
        avg_tgt_coverage := avgQ cov.2 }

end AlignmentQualityEval

/-! ### Helper lemmas -/

theorem dictGet?_dictInsert {α β : Type} [DecidableEq α]
    (d : List (α × β)) (k k' : α) (v : β) :
    dictGet? (dictInsert d k v) k' = if k = k' then some v else dictGet? d k' := by
  induction d with
  | nil => simp [dictInsert, dictGet?]
  | cons p t ih =>
    obtain ⟨a, b⟩ := p
    by_cases hak : a = k
    · subst hak
      by_cases hkk : a = k' <;> simp [dictInsert, dictGet?, hkk]
    · by_cases hak' : a = k' <;> by_cases hkk : k = k' <;>
        simp_all [dictInsert, dictGet?]

/-! ### Claim C1 -/

/-- Claim C1, counterexample: the parser does raise.  On the line
`0<TAB>a-b` the token `a-b` contains `-` and both halves fail `int()`
(Python `ValueError`); on `0<TAB>1-2-3` the token splits into three parts
and the two-element unpacking raises.  Neither token is silently skipped,
refuting "parsing returns an alignment without raising" for every line. -/
theorem alignment_parse_raises_on_malformed_dash_token :
    parseAlignLine "0\ta-b" = Except.error () ∧
    parseAlignLine "0\t1-2-3" = Except.error () := by
  constructor <;> rfl

/-- Claim C1, amended: an empty line yields an empty alignment and a payload
token containing no `-` is silently skipped; but a payload token containing
`-` is skipped only if well-formed — if it does not split into exactly two
halves, or either half is not an integer, parsing raises (modelled as
`Except.error`) instead of skipping the token. -/
theorem alignment_parse_amended :
    parseAlignLine "" = Except.ok [] ∧
    (∀ tok : List Char, '-' ∉ tok → parsePair tok = Except.ok none) ∧
    (∀ tok : List Char, '-' ∈ tok → (splitOnChar '-' tok).length ≠ 2 →
      parsePair tok = Except.error ()) ∧
    (∀ tok a b : List Char, splitOnChar '-' tok = [a, b] →
      pyInt? a = none ∨ pyInt? b = none → '-' ∈ tok →
      parsePair tok = Except.error ()) := by
  refine ⟨rfl, ?_, ?_, ?_⟩
  · intro tok h
    simp [parsePair, h]
  · intro tok hmem hlen
    simp only [parsePair, if_pos hmem]
    cases hsp : splitOnChar '-' tok with
    | nil => rfl
    | cons a t =>
      cases t with
      | nil => rfl
      | cons b t' =>
        cases t' with
        | nil => exact absurd (by rw [hsp]; rfl) hlen
        | cons c t'' => rfl
  · intro tok a b hsp h hmem
    simp only [parsePair, if_pos hmem, hsp]
    rcases h with h | h <;>
      cases hpa : pyInt? a <;> cases hpb : pyInt? b <;> simp_all

/-- Claim C1 witness: a dash-free token is skipped and a three-part token
raises, at concrete inputs. -/
theorem alignment_parse_amended_witness :
    parsePair ['x', 'y'] = Except.ok none ∧
    parsePair ['1', '-', '2', '-', '3'] = Except.error () :=
  ⟨alignment_parse_amended.2.1 ['x', 'y'] (by decide),
   alignment_parse_amended.2.2.1 ['1', '-', '2', '-', '3'] (by decide) (by decide)⟩

/-! ### Claim C9 -/

/-- Claim C9: the crossing flag is monotone — a sentence flagged as crossing
(at least two links, and a pair of links `(i1,j1)`, `(i2,j2)` with `i1 < i2`
and `j1 > j2`) remains flagged after any link is appended: the witnessing
pair is still present and the length can only grow. -/
theorem crossing_flag_monotone (aligns : List (Nat × Nat)) (l : Nat × Nat)
    (h : AlignmentQualityEval.sentenceCrossing aligns = true) :
    AlignmentQualityEval.sentenceCrossing (aligns ++ [l]) = true := by
  simp only [AlignmentQualityEval.sentenceCrossing, AlignmentQualityEval.hasCrossing,
    Bool.and_eq_true, decide_eq_true_eq, List.any_eq_true] at h ⊢
  obtain ⟨hlen, p, hp, q, hq, hpq⟩ := h
  refine ⟨by simp only [List.length_append, List.length_singleton]; omega,
    p, List.mem_append_left _ hp, q, List.mem_append_left _ hq, hpq⟩

/-- Claim C9 witness: appending `(9,9)` to the crossing-flagged list
`[(0,1),(1,0)]` keeps the flag. -/
theorem crossing_flag_monotone_witness :
    AlignmentQualityEval.sentenceCrossing ([(0, 1), (1, 0)] ++ [(9, 9)]) = true :=
  crossing_flag_monotone [(0, 1), (1, 0)] (9, 9) (by decide)

/-! ### Claim C8 -/

/-- Claim C8, counterexample: for the empty link set, self-comparison never
produces an agreement value at all — `compare_methods` skips the sentence
(`continue` when both sets are empty), so no value 1.0 is computed.  The
claim's "for every link set S" fails at `S = ∅`. -/
theorem jaccard_empty_self_not_computed :
    AlignmentQualityEval.jaccardPair ([] : List (Nat × Nat)) [] = none ∧
    AlignmentQualityEval.jaccardPair ([] : List (Nat × Nat)) [] ≠ some 1 := by
  constructor <;> simp [AlignmentQualityEval.jaccardPair]

/-- Claim C8, amended: for every NON-EMPTY link set, self-comparison yields
Jaccard agreement exactly 1, and two non-empty disjoint link sets yield
exactly 0. -/
theorem jaccard_self_one_disjoint_zero :
    (∀ l : List (Nat × Nat), l ≠ [] →
      AlignmentQualityEval.jaccardPair l l = some 1) ∧
    (∀ l1 l2 : List (Nat × Nat), l1 ≠ [] → l2 ≠ [] →
      l1.toFinset ∩ l2.toFinset = ∅ →
      AlignmentQualityEval.jaccardPair l1 l2 = some 0) := by
  constructor
  · intro l hl
    have h0 : l.toFinset.card ≠ 0 := by
      simp [Finset.card_eq_zero, List.toFinset_eq_empty_iff, hl]
    have hq : ((l.toFinset.card : ℚ)) ≠ 0 := Nat.cast_ne_zero.mpr h0
    simp [AlignmentQualityEval.jaccardPair, h0, Nat.pos_of_ne_zero h0,
      Finset.inter_self, Finset.union_self, div_self hq]
  · intro l1 l2 h1 h2 hdisj
    have h0 : l1.toFinset.card ≠ 0 := by
      simp [Finset.card_eq_zero, List.toFinset_eq_empty_iff, h1]
    have hu : 0 < (l1.toFinset ∪ l2.toFinset).card := by
      have : l1.toFinset.card ≤ (l1.toFinset ∪ l2.toFinset).card :=
        Finset.card_le_card Finset.subset_union_left
      omega
    simp [AlignmentQualityEval.jaccardPair, h0, hu, hdisj]

/-- Claim C8 witness: self-comparison of `{(0,0)}` scores 1 and the disjoint
pair `{(0,0)}`, `{(1,1)}` scores 0. -/
theorem jaccard_self_one_disjoint_zero_witness :
    AlignmentQualityEval.jaccardPair [(0, 0)] [(0, 0)] = some 1 ∧
    AlignmentQualityEval.jaccardPair [(0, 0)] [(1, 1)] = some 0 :=
  ⟨jaccard_self_one_disjoint_zero.1 [(0, 0)] (by decide),
   jaccard_self_one_disjoint_zero.2 [(0, 0)] [(1, 1)] (by decide) (by decide) (by decide)⟩

/-! ### Claim C10 -/

/-- Claim C10: `compute_basic_statistics` completes on every corpus with at
least one alignment entry, but on a corpus with zero entries the unguarded
division `100*no_align/len(self.alignments)` raises `ZeroDivisionError`,
while the neighbouring `avg_alignments` is guarded and yields 0. -/
theorem basic_statistics_totality :
    (∀ (alignments : List (List (Nat × Nat))) (eng tgt : List (List String)),
      alignments ≠ [] →
      ∃ s, AlignmentQualityEval.computeBasicStatistics alignments eng tgt = Except.ok s) ∧
    (∀ eng tgt : List (List String),
      AlignmentQualityEval.computeBasicStatistics [] eng tgt = Except.error ()) ∧
    AlignmentQualityEval.avgAlignments [] = 0 := by
  refine ⟨?_, fun eng tgt => rfl, rfl⟩
  intro alignments eng tgt h
  have hlen : ¬(alignments.length = 0) := by simp [List.length_eq_zero, h]
  simp only [AlignmentQualityEval.computeBasicStatistics, if_neg hlen]
  exact ⟨_, rfl⟩

/-- Claim C10 witness: a one-sentence corpus is computed without error. -/
theorem basic_statistics_totality_witness :
    ∃ s, AlignmentQualityEval.computeBasicStatistics [[(0, 0)]] [["a"]] [["x"]]
        = Except.ok s :=
  basic_statistics_totality.1 [[(0, 0)]] [["a"]] [["x"]] (by decide)

/-! ### Claim C4 -/

/-- Claim C4, counterexample: the link `(5,7)` is out of range on both sides
of a sentence whose source and target sequences have length 1, yet
`analyze_alignment_patterns` classifies it into the one-to-one bucket (its
bucket count is 1, not 0): out-of-range links ARE acted upon by the topology
consumer, which never consults the token sequences at all. -/
theorem analyzer_classifies_out_of_range_link :
    (["a"] : List String).length ≤ 5 ∧ (["b"] : List String).length ≤ 7 ∧
    (AlignmentQualityEval.analyzePatterns [(5, 7)]).one_to_one = 1 := by
  refine ⟨by decide, by decide, rfl⟩

/-- Claim C4, amended: out-of-range links are never acted upon by the
PROJECTION consumers — `run_projection.project_senses` skips a link when
either index is out of range, and `SenseProjector.project_senses` skips a
link whose target index is out of range — but the quality analyzer's
coverage, topology and crossing computations do act on out-of-range links. -/
theorem projection_drops_out_of_range_links :
    (∀ (sense_dict : List (String × String)) (se13 : List RunProjection.Se13Tok)
       (recMap : List (Nat × Nat)) (engToks chiToks : List String) (l : Nat × Nat),
      engToks.length ≤ l.1 ∨ chiToks.length ≤ l.2 →
      RunProjection.processAlignment sense_dict se13 recMap engToks chiToks l = none) ∧
    (∀ (bnMap : List (String × String)) (t2i : List (Nat × String))
       (tgtToks : List String) (l : Nat × Nat),
      tgtToks.length ≤ l.2 →
      SenseProjection.emitOne bnMap t2i tgtToks l = none) := by
  constructor
  · intro sense_dict se13 recMap engToks chiToks l h
    have hb : ¬(l.1 < engToks.length ∧ l.2 < chiToks.length) := by omega
    simp only [RunProjection.processAlignment]
    rw [dif_neg hb]
  · intro bnMap t2i tgtToks l h
    have hlt : ¬(l.2 < tgtToks.length) := by omega
    cases hx : dictGet? t2i l.1 with
    | none => simp [SenseProjection.emitOne, hx]
    | some instId =>
      cases hy : dictGet? bnMap instId with
      | none => simp [SenseProjection.emitOne, hx, hy]
      | some bn => simp [SenseProjection.emitOne, hx, hy, hlt]

/-- Claim C4 witness: a link with English index 5 against a one-token
English side is dropped by run_projection, and a link with target index 5
against a one-token target side is dropped by the SenseProjector. -/
theorem projection_drops_out_of_range_links_witness :
    RunProjection.processAlignment [] [] [] ["a"] ["b"] (5, 0) = none ∧
    SenseProjection.emitOne [] [] ["x"] (0, 5) = none :=
  ⟨projection_drops_out_of_range_links.1 [] [] [] ["a"] ["b"] (5, 0) (Or.inl (by decide)),
   projection_drops_out_of_range_links.2 [] [] ["x"] (0, 5) (by decide)⟩

/-! ### Claim C3 -/

/-- Claim C3, counterexample: with the key file lines `tok1 bn:00001n` and
`tok1 bn:00002n`, the instance `tok1` is PRESENT in the loaded map — the
second single-label line overwrites the first (`dict` assignment) — and a
projection IS emitted for it when an alignment link reaches its position. -/
theorem duplicate_key_lines_instance_present_and_projected :
    dictGet? (SenseProjection.load_sense_annotations
        ["tok1 bn:00001n", "tok1 bn:00002n"]) "tok1" = some "bn:00002n" ∧
    SenseProjection.project_senses
        ⟨SenseProjection.load_sense_annotations ["tok1 bn:00001n", "tok1 bn:00002n"],
         [("s0", [(0, "tok1")])], [[(0, 0)]], [["a"]], [["X"]]⟩
      = [("bn:00002n", "x")] := by
  constructor <;> rfl

/-- Claim C3, amended: a key line of exactly `instance_id label` binds the
map at that instance_id, OVERWRITING any earlier binding — appending such a
line makes the loader's result at that instance the new label, and leaves
every other instance unchanged; an instance with several single-label lines
is therefore present (with the last label), not absent. -/
theorem key_load_last_line_wins (ls : List String) (line : String) (k : String) :
    dictGet? (SenseProjection.load_sense_annotations (ls ++ [line])) k =
      match SenseProjection.parseKeyLine line with
      | some p =>
          if p.1 = k then some p.2
          else dictGet? (SenseProjection.load_sense_annotations ls) k
      | none => dictGet? (SenseProjection.load_sense_annotations ls) k := by
  unfold SenseProjection.load_sense_annotations
  rw [List.foldl_append]
  cases h : SenseProjection.parseKeyLine line with
  | none => simp [h]
  | some p => simp [h, dictGet?_dictInsert]

/-! ### Claim C2 -/

/-- Claim C2, counterexample: instance `I1` occurs at two annotation
positions of one sentence, carries the single sense `bn:S1`, and alignment
links reach both positions — yet `SenseProjector.project_senses`
(sense_projection.py) emits TWO records for `I1`, not zero: that
implementation has no duplicate-mention check at all. -/
theorem sense_projector_projects_duplicate_mentions :
    SenseProjection.project_senses
        ⟨[("I1", "bn:S1")], [("s0", [(0, "I1"), (1, "I1")])],
         [[(0, 0), (1, 1)]], [["a", "b"]], [["X", "Y"]]⟩
      = [("bn:S1", "x"), ("bn:S1", "y")] := by
  rfl

/-- Claim C2, amended: the duplicate-mention suppression holds for the
`run_projection.project_senses` implementation only — whenever an
instance_id occurs at two or more annotation positions of the sentence,
every link that resolves to that instance_id is skipped by the
`instance_count == 1` check and produces no record.  The
`SenseProjector.project_senses` variant projects such links normally. -/
theorem run_projection_skips_duplicate_mentions
    (sense_dict : List (String × String)) (se13 : List RunProjection.Se13Tok)
    (recMap : List (Nat × Nat)) (engToks chiToks : List String) (instId : String)
    (hdup : 2 ≤ se13.countP (fun t => t.instance_id == some instId)) :
    ∀ l : Nat × Nat,
      RunProjection.resolveInstance se13 recMap engToks chiToks l = some instId →
      RunProjection.processAlignment sense_dict se13 recMap engToks chiToks l = none := by
  intro l hres
  unfold RunProjection.resolveInstance at hres
  unfold RunProjection.processAlignment
  by_cases hb : l.1 < engToks.length ∧ l.2 < chiToks.length
  · rw [if_pos hb] at hres
    rw [dif_pos hb]
    cases hidx : dictGet? recMap l.1 with
    | none => rw [hidx] at hres
    | some idx =>
      simp only [hidx] at hres ⊢
      cases hd : se13[idx]? with
      | none => rw [hd] at hres
      | some d =>
        simp only [hd] at hres ⊢
        cases hi : d.instance_id with
        | none => rw [hi] at hres
        | some inst =>
          simp only [hi] at hres ⊢
          by_cases he : inst = ""
          · rw [if_pos he] at hres; exact absurd hres (by simp)
          · rw [if_neg he] at hres ⊢
            obtain rfl : inst = instId := by simpa using hres
            cases hs : dictGet? sense_dict inst with
            | none => simp only [hs]
            | some synsetId =>
              have hne : ¬(se13.countP (fun t => t.instance_id == some inst) = 1) := by
                omega
              simp only [hs, if_neg hne]
  · rw [if_neg hb] at hres
    exact absurd hres (by simp)

/-- Claim C2 witness: with `I1` mentioned on two annotation rows, a link
that resolves to `I1` through the reconciliation map yields no record. -/
theorem run_projection_skips_duplicate_mentions_witness :
    RunProjection.processAlignment [("I1", "bn:S1")]
        [⟨"cat", some "I1"⟩, ⟨"dog", some "I1"⟩] [(0, 0)] ["cat"] ["x"] (0, 0)
      = none :=
  run_projection_skips_duplicate_mentions [("I1", "bn:S1")]
    [⟨"cat", some "I1"⟩, ⟨"dog", some "I1"⟩] [(0, 0)] ["cat"] ["x"] "I1"
    (by decide) (0, 0) (by decide)

/-! ### Claim C5 -/

/-- A hit of the inner scan lies at or after the cursor and within the
scanned suffix. -/
theorem scanFromList_bounds (tok : String) :
    ∀ (pending : List RunProjection.Se13Tok) (c m : Nat),
      RunProjection.scanFromList pending tok c = some m →
      c ≤ m ∧ m < c + pending.length := by
  intro pending
  induction pending with
  | nil => intro c m h; exact Option.noConfusion h
  | cons d rest ih =>
    intro c m h
    rw [RunProjection.scanFromList] at h
    by_cases he : lowerString d.raw_text = lowerString tok
    · rw [if_pos he] at h
      obtain rfl : c = m := by simpa using h
      simp
    · rw [if_neg he] at h
      obtain ⟨h1, h2⟩ := ih (c + 1) m h
      constructor
      · omega
      · simp only [List.length_cons]; omega

/-- A hit of `scanFrom` lies at or after the cursor and inside the
annotation row list. -/
theorem scanFrom_bounds (se13 : List RunProjection.Se13Tok) (tok : String)
    (c m : Nat) (h : RunProjection.scanFrom se13 tok c = some m) :
    c ≤ m ∧ m < se13.length := by
  obtain ⟨h1, h2⟩ := scanFromList_bounds tok (se13.drop c) c m h
  rw [List.length_drop] at h2
  omega

/-- With the cursor already exhausted, the reconciliation loop maps nothing
further. -/
theorem reconcileAux_exhausted (se13 : List RunProjection.Se13Tok) :
    ∀ (toks : List String) (p : Nat),
      RunProjection.reconcileAux se13 toks p se13.length = [] := by
  intro toks
  induction toks with
  | nil => intro p; rfl
  | cons tok rest ih =>
    intro p
    rw [RunProjection.reconcileAux]
    have hs : RunProjection.scanFrom se13 tok se13.length = none := by
      rw [RunProjection.scanFrom, List.drop_length]
      rfl
    rw [hs]
    exact ih (p + 1)

/-- Every pair produced by the reconciliation loop lies at or after the
starting position and cursor, and its annotation index is in range. -/
theorem reconcileAux_bounds (se13 : List RunProjection.Se13Tok) :
    ∀ (toks : List String) (p0 c p m : Nat),
      (p, m) ∈ RunProjection.reconcileAux se13 toks p0 c →
      p0 ≤ p ∧ c ≤ m ∧ m < se13.length := by
  intro toks
  induction toks with
  | nil => intro p0 c p m h; exact absurd h (List.not_mem_nil _)
  | cons tok rest ih =>
    intro p0 c p m h
    rw [RunProjection.reconcileAux] at h
    cases hs : RunProjection.scanFrom se13 tok c with
    | some hit =>
      rw [hs] at h
      obtain ⟨hc, hlt⟩ := scanFrom_bounds se13 tok c hit hs
      rcases List.mem_cons.mp h with heq | hmem
      · rw [Prod.mk.injEq] at heq
        obtain ⟨rfl, rfl⟩ := heq
        exact ⟨le_refl _, hc, hlt⟩
      · obtain ⟨h1, h2, h3⟩ := ih (p0 + 1) (hit + 1) p m hmem
        exact ⟨by omega, by omega, h3⟩
    | none =>
      rw [hs, reconcileAux_exhausted] at h
      exact absurd h (List.not_mem_nil _)

/-- Monotonicity of the raw reconciliation pair list. -/
theorem reconcileAux_mono (se13 : List RunProjection.Se13Tok) :
    ∀ (toks : List String) (p0 c p1 m1 p2 m2 : Nat),
      (p1, m1) ∈ RunProjection.reconcileAux se13 toks p0 c →
      (p2, m2) ∈ RunProjection.reconcileAux se13 toks p0 c →
      p1 < p2 → m1 < m2 := by
  intro toks
  induction toks with
  | nil => intro p0 c p1 m1 p2 m2 h1 _ _; exact absurd h1 (List.not_mem_nil _)
  | cons tok rest ih =>
    intro p0 c p1 m1 p2 m2 h1 h2 hp
    rw [RunProjection.reconcileAux] at h1 h2
    cases hs : RunProjection.scanFrom se13 tok c with
    | some hit =>
      rw [hs] at h1 h2
      rcases List.mem_cons.mp h1 with he1 | hm1 <;>
        rcases List.mem_cons.mp h2 with he2 | hm2
      · rw [Prod.mk.injEq] at he1 he2
        omega
      · rw [Prod.mk.injEq] at he1
        obtain ⟨rfl, rfl⟩ := he1
        obtain ⟨-, h2c, -⟩ := reconcileAux_bounds se13 rest _ _ p2 m2 hm2
        omega
      · rw [Prod.mk.injEq] at he2
        obtain ⟨rfl, rfl⟩ := he2
        obtain ⟨h1p, -, -⟩ := reconcileAux_bounds se13 rest _ _ p1 m1 hm1
        omega
      · exact ih (p0 + 1) (hit + 1) p1 m1 p2 m2 hm1 hm2 hp
    | none =>
      rw [hs, reconcileAux_exhausted] at h1
      exact absurd h1 (List.not_mem_nil _)

/-- Claim C5: the reconciliation map built by run_projection.py lines
143-163 is strictly increasing and injective — for any two mapped
aligner-source positions `p1 < p2` the images satisfy `map(p1) < map(p2)`,
and no annotation position is assigned to two aligner-source positions. -/
theorem reconciliation_map_strictly_increasing
    (engToks : List String) (se13 : List RunProjection.Se13Tok)
    (p1 m1 p2 m2 : Nat)
    (h1 : (p1, m1) ∈ RunProjection.reconcile engToks se13)
    (h2 : (p2, m2) ∈ RunProjection.reconcile engToks se13) :
    (p1 < p2 → m1 < m2) ∧ (m1 = m2 → p1 = p2) := by
  constructor
  · exact fun hp => reconcileAux_mono se13 engToks 0 0 p1 m1 p2 m2 h1 h2 hp
  · intro hm
    by_contra hne
    rcases Nat.lt_or_ge p1 p2 with hlt | hge
    · have := reconcileAux_mono se13 engToks 0 0 p1 m1 p2 m2 h1 h2 hlt
      omega
    · have hlt : p2 < p1 := by omega
      have := reconcileAux_mono se13 engToks 0 0 p2 m2 p1 m1 h2 h1 hlt
      omega

/-- Claim C5 witness: over the concrete sentence `["The","cat"]` against
annotation rows `the`, `cat`, the map `[(0,0),(1,1)]` is produced and the
theorem applies to its two entries. -/
theorem reconciliation_map_strictly_increasing_witness :
    ((0 : Nat) < 1 → (0 : Nat) < 1) ∧ ((0 : Nat) = 1 → (0 : Nat) = 1) :=
  reconciliation_map_strictly_increasing ["The", "cat"]
    [⟨"the", none⟩, ⟨"CAT", some "I1"⟩] 0 0 1 1 (by decide) (by decide)

/-! ### Claim C6 -/

/-- A record emitted by the SenseProjector's per-link step comes from a link
whose target index passed the `tgt_idx < len(tgt_tokens)` guard. -/
theorem emitOne_some_bound (bnMap : List (String × String))
    (t2i : List (Nat × String)) (tgtToks : List String) (l : Nat × Nat)
    (r : String × String)
    (h : SenseProjection.emitOne bnMap t2i tgtToks l = some r) :
    l.2 < tgtToks.length := by
  by_cases hlt : l.2 < tgtToks.length
  · exact hlt
  · exfalso
    have hnone : SenseProjection.emitOne bnMap t2i tgtToks l = none := by
      cases hx : dictGet? t2i l.1 with
      | none => simp [SenseProjection.emitOne, hx]
      | some instId =>
        cases hy : dictGet? bnMap instId with
        | none => simp [SenseProjection.emitOne, hx, hy]
        | some bn => simp [SenseProjection.emitOne, hx, hy, hlt]
    rw [hnone] at h
    exact Option.noConfusion h

/-- A record emitted by run_projection's per-link step comes from a link
whose target index passed the `chi_pos < len(chinese_tokens)` guard. -/
theorem processAlignment_some_bound (sense_dict : List (String × String))
    (se13 : List RunProjection.Se13Tok) (recMap : List (Nat × Nat))
    (engToks chiToks : List String) (l : Nat × Nat) (r : String × String)
    (h : RunProjection.processAlignment sense_dict se13 recMap engToks chiToks l
          = some r) :
    l.2 < chiToks.length := by
  unfold RunProjection.processAlignment at h
  by_cases hb : l.1 < engToks.length ∧ l.2 < chiToks.length
  · exact hb.2
  · rw [dif_neg hb] at h
    exact Option.noConfusion h

/-- Every record of the SenseProjector's sentence loop belongs to the
per-sentence projection of some loop iteration whose sentence index is
within both the alignment list and the target token list. -/
theorem projectGo_mem (st : SenseProjection.SPState) :
    ∀ (sids : List String) (i : Nat) (r : String × String),
      r ∈ SenseProjection.projectGo st sids i →
      ∃ (sid : String) (j : Nat) (aligns : List (Nat × Nat)) (tgtToks : List String),
        st.alignments[j]? = some aligns ∧ st.target_tokens[j]? = some tgtToks ∧
        r ∈ SenseProjection.projectSentence st.instance_to_bn
              (dictGetD st.sentence_to_instances sid []) tgtToks aligns := by
  intro sids
  induction sids with
  | nil => intro i r h; exact absurd h (List.not_mem_nil _)
  | cons sid rest ih =>
    intro i r h
    rw [SenseProjection.projectGo] at h
    rcases List.mem_append.mp h with hl | hr
    · cases ha : st.alignments[i]? with
      | none => rw [ha] at hl; exact absurd hl (List.not_mem_nil _)
      | some aligns =>
        rw [ha] at hl
        cases he : st.english_tokens[i]? with
        | none => rw [he] at hl; exact absurd hl (List.not_mem_nil _)
        | some engToks =>
          rw [he] at hl
          cases ht : st.target_tokens[i]? with
          | none => rw [ht] at hl; exact absurd hl (List.not_mem_nil _)
          | some tgtToks =>
            rw [ht] at hl
            exact ⟨sid, i, aligns, tgtToks, ha, ht, hl⟩
    · exact ih (i + 1) r hr

/-- Claim C6: every record either projection operation emits comes from a
surviving link whose target token index is strictly within the sentence's
target token sequence — the out-of-range branch never produces a record. -/
theorem emitted_projection_target_in_bounds :
    (∀ (st : SenseProjection.SPState) (r : String × String),
      r ∈ SenseProjection.project_senses st →
      ∃ (sid : String) (j : Nat) (aligns : List (Nat × Nat)) (tgtToks : List String),
        st.alignments[j]? = some aligns ∧ st.target_tokens[j]? = some tgtToks ∧
        ∃ l ∈ aligns, l.2 < tgtToks.length ∧
          SenseProjection.emitOne st.instance_to_bn
            (dictOfList (dictGetD st.sentence_to_instances sid []))
            tgtToks l = some r) ∧
    (∀ (sense_dict : List (String × String)) (se13 : List RunProjection.Se13Tok)
       (engToks chiToks : List String) (alignment : List (Nat × Nat))
       (r : String × String),
      r ∈ RunProjection.projectSentenceRP sense_dict se13 engToks chiToks alignment →
      ∃ l ∈ alignment, l.2 < chiToks.length ∧
        RunProjection.processAlignment sense_dict se13
          (RunProjection.reconcile engToks se13) engToks chiToks l = some r) := by
  constructor
  · intro st r h
    unfold SenseProjection.project_senses at h
    obtain ⟨sid, j, aligns, tgtToks, ha, ht, hmem⟩ :=
      projectGo_mem st _ 0 r h
    obtain ⟨l, hl, hemit⟩ := List.mem_filterMap.mp hmem
    exact ⟨sid, j, aligns, tgtToks, ha, ht, l, hl,
      emitOne_some_bound _ _ _ _ _ hemit, hemit⟩
  · intro sense_dict se13 engToks chiToks alignment r h
    obtain ⟨l, hl, hproc⟩ := List.mem_filterMap.mp h
    exact ⟨l, hl, processAlignment_some_bound _ _ _ _ _ _ _ hproc, hproc⟩

/-- Claim C6 witness: the theorem applied to a concrete one-sentence state
whose single emitted record is `("S","x")`. -/
theorem emitted_projection_target_in_bounds_witness :
    ∃ (sid : String) (j : Nat) (aligns : List (Nat × Nat)) (tgtToks : List String),
      (SenseProjection.SPState.mk [("I", "S")] [("s", [(0, "I")])]
          [[(0, 0)]] [["a"]] [["X"]]).alignments[j]? = some aligns ∧
      (SenseProjection.SPState.mk [("I", "S")] [("s", [(0, "I")])]
          [[(0, 0)]] [["a"]] [["X"]]).target_tokens[j]? = some tgtToks ∧
      ∃ l ∈ aligns, l.2 < tgtToks.length ∧
        SenseProjection.emitOne [("I", "S")]
          (dictOfList (dictGetD [("s", [(0, "I")])] sid []))
          tgtToks l = some ("S", "x") :=
  emitted_projection_target_in_bounds.1
    ⟨[("I", "S")], [("s", [(0, "I")])], [[(0, 0)]], [["a"]], [["X"]]⟩
    ("S", "x") (by decide)

/-! ### Claim C7 -/

namespace AlignmentQualityEval

/-- The claim's defining condition for the one-to-one bucket: both degrees 1. -/
def isOneToOne (aligns : List (Nat × Nat)) (l : Nat × Nat) : Bool :=
  decide (srcDeg aligns l = 1) && decide (tgtDeg aligns l = 1)

/-- Bucket condition: source degree 1, target degree above 1. -/
def isManyToOneTgt (aligns : List (Nat × Nat)) (l : Nat × Nat) : Bool :=
  decide (srcDeg aligns l = 1) && decide (1 < tgtDeg aligns l)

/-- Bucket condition: source degree above 1, target degree 1. -/
def isOneToManySrc (aligns : List (Nat × Nat)) (l : Nat × Nat) : Bool :=
  decide (1 < srcDeg aligns l) && decide (tgtDeg aligns l = 1)

/-- Bucket condition: both degrees above 1. -/
def isManyToMany (aligns : List (Nat × Nat)) (l : Nat × Nat) : Bool :=
  decide (1 < srcDeg aligns l) && decide (1 < tgtDeg aligns l)

end AlignmentQualityEval

/-- A link of the sentence has source and target degree at least 1 (it
counts itself). -/
theorem mem_deg_pos (aligns : List (Nat × Nat)) (l : Nat × Nat) (hl : l ∈ aligns) :
    1 ≤ AlignmentQualityEval.srcDeg aligns l ∧
    1 ≤ AlignmentQualityEval.tgtDeg aligns l := by
  unfold AlignmentQualityEval.srcDeg AlignmentQualityEval.tgtDeg
  exact ⟨List.countP_pos_iff.mpr ⟨l, hl, by simp⟩, List.countP_pos_iff.mpr ⟨l, hl, by simp⟩⟩

/-- The classification loop adds, per link, exactly one to the bucket given
by that link's degrees. -/
theorem analyzeGo_spec (aligns : List (Nat × Nat)) :
    ∀ (sub : List (Nat × Nat)) (acc : AlignmentQualityEval.PatternCounts),
      (∀ l ∈ sub, l ∈ aligns) →
      AlignmentQualityEval.analyzeGo aligns acc sub =
        ⟨acc.one_to_one + sub.countP (AlignmentQualityEval.isOneToOne aligns),
         acc.many_to_one_tgt + sub.countP (AlignmentQualityEval.isManyToOneTgt aligns),
         acc.one_to_many_src + sub.countP (AlignmentQualityEval.isOneToManySrc aligns),
         acc.many_to_many + sub.countP (AlignmentQualityEval.isManyToMany aligns)⟩ := by
  intro sub
  induction sub with
  | nil => intro acc _; simp [AlignmentQualityEval.analyzeGo]
  | cons l rest ih =>
    intro acc hsub
    obtain ⟨hs, ht⟩ := mem_deg_pos aligns l (hsub l (List.mem_cons_self l rest))
    rw [AlignmentQualityEval.analyzeGo,
      ih (AlignmentQualityEval.bumpPattern aligns acc l)
        (fun x hx => hsub x (List.mem_cons_of_mem l hx))]
    by_cases h1 : AlignmentQualityEval.srcDeg aligns l = 1
    · by_cases h2 : AlignmentQualityEval.tgtDeg aligns l = 1
      · simp [AlignmentQualityEval.bumpPattern, AlignmentQualityEval.isOneToOne,
          AlignmentQualityEval.isManyToOneTgt, AlignmentQualityEval.isOneToManySrc,
          AlignmentQualityEval.isManyToMany, List.countP_cons, h1, h2,
          AlignmentQualityEval.PatternCounts.mk.injEq]
        all_goals omega
      · have h2' : 1 < AlignmentQualityEval.tgtDeg aligns l := by omega
        simp [AlignmentQualityEval.bumpPattern, AlignmentQualityEval.isOneToOne,
          AlignmentQualityEval.isManyToOneTgt, AlignmentQualityEval.isOneToManySrc,
          AlignmentQualityEval.isManyToMany, List.countP_cons, h1, h2, h2',
          AlignmentQualityEval.PatternCounts.mk.injEq]
        all_goals omega
    · have h1' : 1 < AlignmentQualityEval.srcDeg aligns l := by omega
      by_cases h2 : AlignmentQualityEval.tgtDeg aligns l = 1
      · simp [AlignmentQualityEval.bumpPattern, AlignmentQualityEval.isOneToOne,
          AlignmentQualityEval.isManyToOneTgt, AlignmentQualityEval.isOneToManySrc,
          AlignmentQualityEval.isManyToMany, List.countP_cons, h1, h1', h2,
          AlignmentQualityEval.PatternCounts.mk.injEq]
        all_goals omega
      · have h2' : 1 < AlignmentQualityEval.tgtDeg aligns l := by omega
        simp [AlignmentQualityEval.bumpPattern, AlignmentQualityEval.isOneToOne,
          AlignmentQualityEval.isManyToOneTgt, AlignmentQualityEval.isOneToManySrc,
          AlignmentQualityEval.isManyToMany, List.countP_cons, h1, h1', h2, h2',
          AlignmentQualityEval.PatternCounts.mk.injEq]
        all_goals omega

/-- Each link of the sentence satisfies exactly one bucket condition, so the
four counts sum to the link count. -/
theorem countP_buckets_sum (aligns : List (Nat × Nat)) :
    ∀ sub : List (Nat × Nat), (∀ l ∈ sub, l ∈ aligns) →
      sub.countP (AlignmentQualityEval.isOneToOne aligns)
        + sub.countP (AlignmentQualityEval.isManyToOneTgt aligns)
        + sub.countP (AlignmentQualityEval.isOneToManySrc aligns)
        + sub.countP (AlignmentQualityEval.isManyToMany aligns) = sub.length := by
  intro sub
  induction sub with
  | nil => intro _; simp
  | cons l rest ih =>
    intro hsub
    obtain ⟨hs, ht⟩ := mem_deg_pos aligns l (hsub l (List.mem_cons_self l rest))
    have hrec := ih (fun x hx => hsub x (List.mem_cons_of_mem l hx))
    by_cases h1 : AlignmentQualityEval.srcDeg aligns l = 1
    · by_cases h2 : AlignmentQualityEval.tgtDeg aligns l = 1
      · simp [AlignmentQualityEval.isOneToOne, AlignmentQualityEval.isManyToOneTgt,
          AlignmentQualityEval.isOneToManySrc, AlignmentQualityEval.isManyToMany,
          List.countP_cons, h1, h2]
        omega
      · have h2' : 1 < AlignmentQualityEval.tgtDeg aligns l := by omega
        simp [AlignmentQualityEval.isOneToOne, AlignmentQualityEval.isManyToOneTgt,
          AlignmentQualityEval.isOneToManySrc, AlignmentQualityEval.isManyToMany,
          List.countP_cons, h1, h2, h2']
        omega
    · have h1' : 1 < AlignmentQualityEval.srcDeg aligns l := by omega
      by_cases h2 : AlignmentQualityEval.tgtDeg aligns l = 1
      · simp [AlignmentQualityEval.isOneToOne, AlignmentQualityEval.isManyToOneTgt,
          AlignmentQualityEval.isOneToManySrc, AlignmentQualityEval.isManyToMany,
          List.countP_cons, h1, h1', h2]
        omega
      · have h2' : 1 < AlignmentQualityEval.tgtDeg aligns l := by omega
        simp [AlignmentQualityEval.isOneToOne, AlignmentQualityEval.isManyToOneTgt,
          AlignmentQualityEval.isOneToManySrc, AlignmentQualityEval.isManyToMany,
          List.countP_cons, h1, h1', h2, h2']
        omega

/-- Claim C7: `analyze_alignment_patterns` assigns every link of a sentence
to exactly one of the four topology buckets, decided by whether its source
and target degrees equal 1 — each bucket counter equals the count of links
satisfying that bucket's degree condition — and the four bucket counts sum
exactly to the sentence's link count. -/
theorem topology_buckets_partition_links (aligns : List (Nat × Nat)) :
    (AlignmentQualityEval.analyzePatterns aligns).one_to_one
        = aligns.countP (AlignmentQualityEval.isOneToOne aligns) ∧
    (AlignmentQualityEval.analyzePatterns aligns).many_to_one_tgt
        = aligns.countP (AlignmentQualityEval.isManyToOneTgt aligns) ∧
    (AlignmentQualityEval.analyzePatterns aligns).one_to_many_src
        = aligns.countP (AlignmentQualityEval.isOneToManySrc aligns) ∧
    (AlignmentQualityEval.analyzePatterns aligns).many_to_many
        = aligns.countP (AlignmentQualityEval.isManyToMany aligns) ∧
    (AlignmentQualityEval.analyzePatterns aligns).one_to_one
      + (AlignmentQualityEval.analyzePatterns aligns).many_to_one_tgt
      + (AlignmentQualityEval.analyzePatterns aligns).one_to_many_src
      + (AlignmentQualityEval.analyzePatterns aligns).many_to_many
        = aligns.length := by
  by_cases h : aligns = []
  · subst h
    simp [AlignmentQualityEval.analyzePatterns]
  · have hgo := analyzeGo_spec aligns aligns ⟨0, 0, 0, 0⟩ (fun l hl => hl)
    have hsum := countP_buckets_sum aligns aligns (fun l hl => hl)
    rw [AlignmentQualityEval.analyzePatterns, if_neg h, hgo]
    refine ⟨by simp, by simp, by simp, by simp, ?_⟩
    simpa using hsum
